import Mathlib

/-!
Verification of the 2P_reader scripts (reader.py, viewer.py).

Arrays are shallowly embedded as nested lists of exact rationals: a 2D image
is a list of rows, a 3D stack a list of 2D frames.  Floating-point values are
modelled as exact rationals; machine floats' rounding is out of scope.
-/

/-- A 2D image array (row-major): list of rows of pixel values. -/
abbrev Arr2 := List (List ℚ)

/-- A 3D stack shaped (T, Y, X): list of 2D frames. -/
abbrev Arr3 := List Arr2

/-- One element of `np.clip(arr, 0, 1)`. -/
def clip01 (x : ℚ) : ℚ := min (max x 0) 1

/-- `np.zeros_like(img2d, dtype=np.float32)`: all-zero array of the same shape. -/
def zeros_like (a : Arr2) : Arr2 := a.map (fun row => row.map (fun _ => (0 : ℚ)))

/-- `img2d.astype(np.float32)`: a fresh elementwise copy (values exact here). -/
def astype_f (a : Arr2) : Arr2 := a.map (fun row => row.map (fun x => x))

/-- `np.percentile` first flattens the input and sorts it ascending. -/
def sortedVals (img : Arr2) : List ℚ := (img.flatten).insertionSort (· ≤ ·)

/-- numpy's default (linear-interpolation) percentile of a sorted sample `xs`:
virtual position `q/100 * (n-1)`, then linear interpolation between the two
neighbouring sample values. -/
def percentileOf (xs : List ℚ) (q : ℚ) : ℚ :=
  let n := xs.length
  let pos : ℚ := (q / 100) * ((n : ℚ) - 1)
  let i : ℕ := (⌊pos⌋).toNat
  let frac : ℚ := pos - (⌊pos⌋ : ℚ)
  let a := xs.getD i 0
  let b := xs.getD (i + 1) a
  a + frac * (b - a)

/-- `np.percentile(img2d, q)` for a 2D array. -/
def np_percentile (img : Arr2) (q : ℚ) : ℚ := percentileOf (sortedVals img) q

/-- reader.py `percentile_contrast(img2d, low=1, high=99)`:
compute the two percentiles; if they coincide return `np.zeros_like`,
otherwise `(img2d.astype(float32) - p_low) / (p_high - p_low)`;
finally `np.clip(img_disp, 0, 1)`. -/
def percentile_contrast (img2d : Arr2) (low : ℚ := 1) (high : ℚ := 99) : Arr2 :=
  let p_low := np_percentile img2d low
  let p_high := np_percentile img2d high
  let img_disp :=
    if p_high = p_low then
      zeros_like img2d
    else
      (astype_f img2d).map (fun row => row.map (fun x => (x - p_low) / (p_high - p_low)))
  img_disp.map (fun row => row.map clip01)

theorem clip01_zero : clip01 0 = 0 := by norm_num [clip01]

theorem clip01_one : clip01 1 = 1 := by norm_num [clip01]

theorem clip01_nonneg (x : ℚ) : 0 ≤ clip01 x :=
  le_min (le_max_right x 0) zero_le_one

theorem clip01_le_one (x : ℚ) : clip01 x ≤ 1 := min_le_right _ _

/-- Claim C1: if the low and high percentile values of a 2D array coincide,
`percentile_contrast` returns an all-zero array of the same shape. -/
theorem C1_percentile_contrast_flat (img2d : Arr2) (low high p : ℚ)
    (hl : np_percentile img2d low = p) (hh : np_percentile img2d high = p) :
    percentile_contrast img2d low high = zeros_like img2d ∧
    (percentile_contrast img2d low high).length = img2d.length ∧
    (∀ row ∈ percentile_contrast img2d low high, ∀ x ∈ row, x = 0) := by
  have hz : percentile_contrast img2d low high = zeros_like img2d := by
    unfold percentile_contrast
    rw [hl, hh]
    simp [zeros_like, List.map_map, Function.comp, clip01_zero]
  refine ⟨hz, ?_, ?_⟩
  · rw [hz]; simp [zeros_like]
  · rw [hz]
    intro row hrow x hx
    simp only [zeros_like, List.mem_map] at hrow
    obtain ⟨r, _, rfl⟩ := hrow
    obtain ⟨y, _, hyx⟩ := List.mem_map.mp hx
    exact hyx.symm

/-- Witness for C1 on the flat image `[[5,5],[5,5]]` with the default 1/99
percentiles: both percentile values are 5 and the output is all zeros. -/
theorem C1_witness :
    (np_percentile [[5, 5], [5, 5]] 1 = 5 ∧ np_percentile [[5, 5], [5, 5]] 99 = 5) ∧
    percentile_contrast [[5, 5], [5, 5]] 1 99 = zeros_like [[5, 5], [5, 5]] := by
  have hl : np_percentile [[5, 5], [5, 5]] 1 = 5 := by
    norm_num [np_percentile, percentileOf, sortedVals, List.insertionSort, List.orderedInsert, show Int.toNat 2 = 2 from rfl]
  have hh : np_percentile [[5, 5], [5, 5]] 99 = 5 := by
    norm_num [np_percentile, percentileOf, sortedVals, List.insertionSort, List.orderedInsert, show Int.toNat 2 = 2 from rfl]
  exact ⟨⟨hl, hh⟩, (C1_percentile_contrast_flat [[5, 5], [5, 5]] 1 99 5 hl hh).1⟩

/-- Claim C2: if the two percentile values differ, `percentile_contrast`
computes `clip((x - p_low)/(p_high - p_low), 0, 1)` elementwise; every output
value lies in [0,1]; an input equal to `p_low` maps to 0 and one equal to
`p_high` maps to 1. -/
theorem C2_percentile_contrast_stretch (img2d : Arr2) (low high pl ph : ℚ)
    (hl : np_percentile img2d low = pl) (hh : np_percentile img2d high = ph)
    (hne : pl ≠ ph) :
    percentile_contrast img2d low high
      = img2d.map (fun row => row.map (fun x => clip01 ((x - pl) / (ph - pl)))) ∧
    (∀ row ∈ percentile_contrast img2d low high, ∀ x ∈ row, 0 ≤ x ∧ x ≤ 1) ∧
    clip01 ((pl - pl) / (ph - pl)) = 0 ∧
    clip01 ((ph - pl) / (ph - pl)) = 1 := by
  have heq : percentile_contrast img2d low high
      = img2d.map (fun row => row.map (fun x => clip01 ((x - pl) / (ph - pl)))) := by
    unfold percentile_contrast
    rw [hl, hh]
    simp [Ne.symm hne, astype_f, List.map_map, Function.comp]
  refine ⟨heq, ?_, ?_, ?_⟩
  · rw [heq]
    intro row hrow x hx
    simp only [List.mem_map] at hrow
    obtain ⟨r, _, rfl⟩ := hrow
    simp only [List.mem_map] at hx
    obtain ⟨y, _, rfl⟩ := hx
    exact ⟨clip01_nonneg _, clip01_le_one _⟩
  · rw [sub_self, zero_div, clip01_zero]
  · rw [div_self (sub_ne_zero_of_ne (Ne.symm hne)), clip01_one]

/-- Witness for C2 on `[[0,1],[2,3]]` with the default 1/99 percentiles:
p_low = 3/100, p_high = 297/100, and the output is the clipped affine map. -/
theorem C2_witness :
    (np_percentile [[0, 1], [2, 3]] 1 = 3 / 100 ∧
     np_percentile [[0, 1], [2, 3]] 99 = 297 / 100 ∧ (3 / 100 : ℚ) ≠ 297 / 100) ∧
    percentile_contrast [[0, 1], [2, 3]] 1 99
      = [[0, 1], [2, 3]].map (fun row => row.map
          (fun x => clip01 ((x - 3 / 100) / (297 / 100 - 3 / 100)))) ∧
    clip01 ((3 / 100 - 3 / 100) / (297 / 100 - 3 / 100)) = 0 ∧
    clip01 ((297 / 100 - 3 / 100) / (297 / 100 - 3 / 100)) = 1 := by
  have hl : np_percentile [[0, 1], [2, 3]] 1 = 3 / 100 := by
    norm_num [np_percentile, percentileOf, sortedVals, List.insertionSort, List.orderedInsert, show Int.toNat 2 = 2 from rfl]
  have hh : np_percentile [[0, 1], [2, 3]] 99 = 297 / 100 := by
    norm_num [np_percentile, percentileOf, sortedVals, List.insertionSort, List.orderedInsert, show Int.toNat 2 = 2 from rfl]
  have hne : (3 / 100 : ℚ) ≠ 297 / 100 := by norm_num
  have h := C2_percentile_contrast_stretch [[0, 1], [2, 3]] 1 99 (3 / 100) (297 / 100) hl hh hne
  exact ⟨⟨hl, hh, hne⟩, h.1, h.2.2.1, h.2.2.2⟩

/-- The numpy dtypes relevant to this pipeline. -/
inductive NpDtype
  | uint8 | uint16 | int16 | int32 | float32 | float64
deriving DecidableEq

/-- `dtype.kind == "f"` (floating-point kind). -/
def NpDtype.kindIsF : NpDtype → Bool
  | .float32 => true
  | .float64 => true
  | _ => false

/-- A numpy array with its dtype; element values as exact rationals. -/
structure NpArr where
  dtype : NpDtype
  vals : List ℚ
deriving DecidableEq

/-- `astype` conversion of one element to a target dtype: C-style integer
conversion wraps modulo the width (signed targets re-centred); float targets
keep the value.  Used by `save_as_tiff` only on integer-kind arrays, whose
values are integers, so the inner floor is the identity there. -/
def wrapCast : NpDtype → ℚ → ℚ
  | .uint8, v => ((⌊v⌋ % 256 : ℤ) : ℚ)
  | .uint16, v => ((⌊v⌋ % 65536 : ℤ) : ℚ)
  | .int16, v => (((⌊v⌋ + 32768) % 65536 - 32768 : ℤ) : ℚ)
  | .int32, v => (((⌊v⌋ + 2147483648) % 4294967296 - 2147483648 : ℤ) : ℚ)
  | .float32, v => v
  | .float64, v => v

/-- reader.py `save_as_tiff`: the exact pixel payload handed to
`tifffile.imwrite`.  If the array's dtype differs from the target dtype:
a float-kind array becomes `np.clip(arr * 65535.0, 0, 65535).astype(np.uint16)`
(the cast truncates toward zero, which is the floor since the clip makes the
values nonnegative); any other array becomes `arr.astype(dtype)`.  Otherwise
the array is passed through unchanged. -/
def save_as_tiff_payload (arr : NpArr) (dtype : NpDtype := .uint16) : NpArr :=
  if arr.dtype ≠ dtype then
    if arr.dtype.kindIsF then
      ⟨.uint16, arr.vals.map (fun v => ((⌊min (max (v * 65535) 0) 65535⌋ : ℤ) : ℚ))⟩
    else
      ⟨dtype, arr.vals.map (wrapCast dtype)⟩
  else
    arr

/-- Claim C3: with target dtype uint16, `save_as_tiff` writes a float-kind
array as `clip(v*65535, 0, 65535)` cast to uint16, an integer-kind array of
another dtype cast directly to uint16 (wrapping, no rescale), and a uint16
array unchanged. -/
theorem C3_save_as_tiff_cases (arr : NpArr) :
    (arr.dtype.kindIsF = true →
      save_as_tiff_payload arr .uint16
        = ⟨.uint16, arr.vals.map (fun v => ((⌊min (max (v * 65535) 0) 65535⌋ : ℤ) : ℚ))⟩) ∧
    (arr.dtype.kindIsF = false → arr.dtype ≠ .uint16 →
      save_as_tiff_payload arr .uint16
        = ⟨.uint16, arr.vals.map (fun v => ((⌊v⌋ % 65536 : ℤ) : ℚ))⟩) ∧
    (arr.dtype = .uint16 → save_as_tiff_payload arr .uint16 = arr) := by
  refine ⟨fun hf => ?_, fun hnf hne => ?_, fun he => ?_⟩
  · have hne : arr.dtype ≠ .uint16 := by
      cases h : arr.dtype <;> simp_all [NpDtype.kindIsF]
    rw [save_as_tiff_payload, if_pos hne, if_pos hf]
  · rw [save_as_tiff_payload, if_pos hne, if_neg (by simp [hnf])]
    simp [wrapCast]
  · rw [save_as_tiff_payload, if_neg (by simp [he])]

/-- Witness for C3: a float32 value 1/2 is rescaled to 32767, an int32 value
70000 wraps to 4464, and a uint16 array passes through unchanged. -/
theorem C3_witness :
    ((NpArr.mk .float32 [1 / 2]).dtype.kindIsF = true ∧
      save_as_tiff_payload ⟨.float32, [1 / 2]⟩ .uint16 = ⟨.uint16, [32767]⟩) ∧
    ((NpArr.mk .int32 [70000]).dtype.kindIsF = false ∧
      (NpArr.mk .int32 [70000]).dtype ≠ .uint16 ∧
      save_as_tiff_payload ⟨.int32, [70000]⟩ .uint16 = ⟨.uint16, [4464]⟩) ∧
    ((NpArr.mk .uint16 [7]).dtype = .uint16 ∧
      save_as_tiff_payload ⟨.uint16, [7]⟩ .uint16 = ⟨.uint16, [7]⟩) := by
  have h1 := (C3_save_as_tiff_cases ⟨.float32, [1 / 2]⟩).1 rfl
  have h2 := (C3_save_as_tiff_cases ⟨.int32, [70000]⟩).2.1 rfl (by simp)
  have h3 := (C3_save_as_tiff_cases ⟨.uint16, [7]⟩).2.2 rfl
  refine ⟨⟨rfl, ?_⟩, ⟨rfl, by simp, ?_⟩, ⟨rfl, h3⟩⟩
  · rw [h1]; norm_num
  · rw [h2]; norm_num

/-- Claim C7 counterexample: for v = 3/327675 ∈ [0,1] we have v·65535 = 3/5,
the stored uint16 value is 0 (truncation) while the nearest integer is 1, so
the stored value is NOT within 1/65535 of `round(v*65535)`. -/
theorem C7_counterexample :
    ¬ (|(save_as_tiff_payload ⟨.float64, [3 / 327675]⟩ .uint16).vals.getD 0 0
          - ((round ((3 / 327675 : ℚ) * 65535) : ℤ) : ℚ)| ≤ 1 / 65535) := by
  have hs : (save_as_tiff_payload ⟨.float64, [3 / 327675]⟩ .uint16).vals.getD 0 0 = 0 := by
    simp [save_as_tiff_payload, NpDtype.kindIsF]
    norm_num
  have hr : ((round ((3 / 327675 : ℚ) * 65535) : ℤ) : ℚ) = 1 := by
    rw [round_eq]; norm_num
  rw [hs, hr]; norm_num

/-- Claim C7 amended: saving a floating-point v ∈ [0,1] via `save_as_tiff` as
16-bit stores exactly ⌊v·65535⌋ (truncation, not rounding to nearest), and
that stored integer is within 1 of v·65535. -/
theorem C7_roundtrip_floor (v : ℚ) (h0 : 0 ≤ v) (h1 : v ≤ 1) :
    (save_as_tiff_payload ⟨.float64, [v]⟩ .uint16).vals = [((⌊v * 65535⌋ : ℤ) : ℚ)] ∧
    |((⌊v * 65535⌋ : ℤ) : ℚ) - v * 65535| < 1 := by
  have hmax : max (v * 65535) 0 = v * 65535 := max_eq_left (by positivity)
  have hmin : min (v * 65535) (65535 : ℚ) = v * 65535 := min_eq_left (by linarith)
  constructor
  · simp [save_as_tiff_payload, NpDtype.kindIsF, hmax, hmin]
  · rw [abs_sub_lt_iff]
    constructor
    · have := Int.floor_le (v * 65535); linarith
    · have := Int.lt_floor_add_one (v * 65535); linarith

/-- Witness for the amended C7 at v = 1/2: the stored value is 32767. -/
theorem C7_witness :
    ((0 : ℚ) ≤ 1 / 2 ∧ (1 / 2 : ℚ) ≤ 1) ∧
    (save_as_tiff_payload ⟨.float64, [1 / 2]⟩ .uint16).vals
      = [((⌊(1 / 2 : ℚ) * 65535⌋ : ℤ) : ℚ)] ∧
    ((⌊(1 / 2 : ℚ) * 65535⌋ : ℤ) : ℚ) = 32767 ∧
    |((⌊(1 / 2 : ℚ) * 65535⌋ : ℤ) : ℚ) - (1 / 2 : ℚ) * 65535| < 1 := by
  have h := C7_roundtrip_floor (1 / 2) (by norm_num) (by norm_num)
  exact ⟨⟨by norm_num, by norm_num⟩, h.1, by norm_num, h.2⟩

/-- Entry (i, j) of a 2D array, with numpy-irrelevant defaults out of range. -/
def getE (a : Arr2) (i j : ℕ) : ℚ := (a.getD i []).getD j 0

/-- Elementwise combination of two equally-shaped frames. -/
def zip2 (f : ℚ → ℚ → ℚ) (a b : Arr2) : Arr2 :=
  List.zipWith (fun u v => List.zipWith f u v) a b

/-- Elementwise frame addition (the accumulation inside `np.mean(..., axis=0)`). -/
def addA : Arr2 → Arr2 → Arr2 := zip2 (· + ·)

/-- Elementwise frame maximum (the accumulation inside `np.max(..., axis=0)`). -/
def maxA : Arr2 → Arr2 → Arr2 := zip2 max

/-- `np.sum(data, axis=0)`: fold of elementwise addition over the frames. -/
def np_sum0 : Arr3 → Arr2
  | [] => []
  | f :: fs => fs.foldl addA f

/-- `np.mean(data, axis=0)`: floating-point accumulation — the axis-0 sum
divided elementwise by the frame count. -/
def np_mean0 (d : Arr3) : Arr2 :=
  (np_sum0 d).map (fun row => row.map (fun x => x / (d.length : ℚ)))

/-- `np.max(data, axis=0)`: fold of elementwise maximum over the frames
(kept in the stack's own dtype: values are frame values, never rescaled). -/
def np_max0 : Arr3 → Arr2
  | [] => []
  | f :: fs => fs.foldl maxA f

/-- reader.py `summarize_movie`: `mid_t = n_frames // 2`. -/
def summarize_mid_t (data : Arr3) : ℕ := data.length / 2

/-- reader.py `summarize_movie`: the middle frame `data[mid_t, :, :]`. -/
def summarize_mid_frame (data : Arr3) : Arr2 := data.getD (summarize_mid_t data) []

/-- `a` is an r×c array: r rows, each of length c. -/
def shape2 (a : Arr2) (r c : ℕ) : Prop := a.length = r ∧ ∀ row ∈ a, row.length = c

instance shape2.instDec (a : Arr2) (r c : ℕ) : Decidable (shape2 a r c) :=
  inferInstanceAs (Decidable (a.length = r ∧ ∀ row ∈ a, row.length = c))

theorem shape2_zip2 (f : ℚ → ℚ → ℚ) (a b : Arr2) (r c : ℕ)
    (ha : shape2 a r c) (hb : shape2 b r c) : shape2 (zip2 f a b) r c := by
  obtain ⟨hal, har⟩ := ha
  obtain ⟨hbl, hbr⟩ := hb
  unfold zip2
  constructor
  · simp [hal, hbl]
  · intro row hrow
    obtain ⟨i, hi, rfl⟩ := List.mem_iff_getElem.mp hrow
    have hia : i < a.length := by simp [hal, hbl] at hi; omega
    have hib : i < b.length := by simp [hal, hbl] at hi; omega
    rw [List.getElem_zipWith]
    rw [List.length_zipWith, har a[i] (a.getElem_mem hia), hbr b[i] (b.getElem_mem hib)]
    simp

theorem getE_zip2 (f : ℚ → ℚ → ℚ) (a b : Arr2) (r c i j : ℕ)
    (ha : shape2 a r c) (hb : shape2 b r c) (hi : i < r) (hj : j < c) :
    getE (zip2 f a b) i j = f (getE a i j) (getE b i j) := by
  obtain ⟨hal, har⟩ := ha
  obtain ⟨hbl, hbr⟩ := hb
  have hia : i < a.length := by omega
  have hib : i < b.length := by omega
  have hja : j < a[i].length := by rw [har a[i] (a.getElem_mem hia)]; omega
  have hjb : j < b[i].length := by rw [hbr b[i] (b.getElem_mem hib)]; omega
  unfold getE zip2
  have hiz : i < (List.zipWith (fun u v => List.zipWith f u v) a b).length := by
    rw [List.length_zipWith]; omega
  rw [List.getD_eq_getElem _ _ hiz, List.getD_eq_getElem _ _ hia, List.getD_eq_getElem _ _ hib,
    List.getElem_zipWith]
  have hjz : j < (List.zipWith f a[i] b[i]).length := by
    rw [List.length_zipWith]; omega
  rw [List.getD_eq_getElem _ _ hjz, List.getD_eq_getElem _ _ hja, List.getD_eq_getElem _ _ hjb,
    List.getElem_zipWith]

theorem shape2_foldl_zip2 (f : ℚ → ℚ → ℚ) (fs : Arr3) (g : Arr2) (r c : ℕ)
    (hg : shape2 g r c) (hfs : ∀ x ∈ fs, shape2 x r c) :
    shape2 (fs.foldl (zip2 f) g) r c := by
  induction fs generalizing g with
  | nil => exact hg
  | cons x xs ih =>
    rw [List.foldl_cons]
    exact ih (zip2 f g x) (shape2_zip2 f g x r c hg (hfs x (by simp)))
      (fun y hy => hfs y (by simp [hy]))

theorem getE_foldl_addA (fs : Arr3) (g : Arr2) (r c i j : ℕ)
    (hg : shape2 g r c) (hfs : ∀ x ∈ fs, shape2 x r c) (hi : i < r) (hj : j < c) :
    getE (fs.foldl addA g) i j = getE g i j + (fs.map (fun x => getE x i j)).sum := by
  induction fs generalizing g with
  | nil => simp
  | cons x xs ih =>
    have hx : shape2 x r c := hfs x (by simp)
    rw [List.foldl_cons, ih (addA g x) (shape2_zip2 _ _ _ _ _ hg hx)
      (fun y hy => hfs y (by simp [hy]))]
    rw [show addA g x = zip2 (· + ·) g x from rfl,
      getE_zip2 (· + ·) g x r c i j hg hx hi hj]
    simp [add_assoc]

theorem getE_foldl_maxA (fs : Arr3) (g : Arr2) (r c i j : ℕ)
    (hg : shape2 g r c) (hfs : ∀ x ∈ fs, shape2 x r c) (hi : i < r) (hj : j < c) :
    (getE g i j ≤ getE (fs.foldl maxA g) i j ∧
      ∀ x ∈ fs, getE x i j ≤ getE (fs.foldl maxA g) i j) ∧
    (getE (fs.foldl maxA g) i j = getE g i j ∨
      ∃ x ∈ fs, getE (fs.foldl maxA g) i j = getE x i j) := by
  induction fs generalizing g with
  | nil => simp
  | cons x xs ih =>
    have hx : shape2 x r c := hfs x (by simp)
    have hgx : shape2 (maxA g x) r c := shape2_zip2 _ _ _ _ _ hg hx
    have hmax : getE (maxA g x) i j = max (getE g i j) (getE x i j) :=
      getE_zip2 max g x r c i j hg hx hi hj
    obtain ⟨⟨hb1, hb2⟩, hat⟩ := ih (maxA g x) hgx (fun y hy => hfs y (by simp [hy]))
    rw [List.foldl_cons]
    refine ⟨⟨?_, ?_⟩, ?_⟩
    · exact le_trans (by rw [hmax]; exact le_max_left _ _) hb1
    · intro y hy
      rcases List.mem_cons.mp hy with rfl | hy'
      · exact le_trans (by rw [hmax]; exact le_max_right _ _) hb1
      · exact hb2 y hy'
    · rcases hat with hat | ⟨y, hy, hey⟩
      · rw [hat, hmax]
        rcases max_choice (getE g i j) (getE x i j) with h | h
        · exact Or.inl h
        · exact Or.inr ⟨x, by simp, h⟩
      · exact Or.inr ⟨y, by simp [hy], hey⟩

theorem getE_map_elemwise (fn : ℚ → ℚ) (a : Arr2) (r c i j : ℕ)
    (ha : shape2 a r c) (hi : i < r) (hj : j < c) :
    getE (a.map (fun row => row.map fn)) i j = fn (getE a i j) := by
  obtain ⟨hal, har⟩ := ha
  have hia : i < a.length := by omega
  have him : i < (a.map (fun row => row.map fn)).length := by simp; omega
  have hja : j < a[i].length := by rw [har a[i] (a.getElem_mem hia)]; omega
  unfold getE
  rw [List.getD_eq_getElem _ _ him, List.getD_eq_getElem _ _ hia, List.getElem_map]
  have hjm : j < (a[i].map fn).length := by simp; omega
  rw [List.getD_eq_getElem _ _ hjm, List.getD_eq_getElem _ _ hja, List.getElem_map]

/-- Claim C4: `summarize_movie` takes the middle frame at index `n // 2`;
the mean projection's entry at (i, j) is the floating-point mean of that
entry over all frames; the max projection's entry is an upper bound of, and
attained by, the frames' entries there. -/
theorem C4_summarize_projections (d : Arr3) (r c i j : ℕ)
    (hne : d ≠ []) (hsh : ∀ f ∈ d, shape2 f r c) (hi : i < r) (hj : j < c) :
    summarize_mid_t d = d.length / 2 ∧
    summarize_mid_frame d = d.getD (d.length / 2) [] ∧
    getE (np_mean0 d) i j = (d.map (fun f => getE f i j)).sum / (d.length : ℚ) ∧
    (∀ f ∈ d, getE f i j ≤ getE (np_max0 d) i j) ∧
    (∃ f ∈ d, getE (np_max0 d) i j = getE f i j) := by
  obtain ⟨g, fs, rfl⟩ := List.exists_cons_of_ne_nil hne
  have hg : shape2 g r c := hsh g (by simp)
  have hfs : ∀ x ∈ fs, shape2 x r c := fun y hy => hsh y (by simp [hy])
  refine ⟨rfl, rfl, ?_, ?_, ?_⟩
  · have hsum : shape2 (np_sum0 (g :: fs)) r c := by
      show shape2 (fs.foldl addA g) r c
      exact shape2_foldl_zip2 (· + ·) fs g r c hg hfs
    unfold np_mean0
    rw [getE_map_elemwise _ _ r c i j hsum hi hj]
    show getE (fs.foldl addA g) i j / _ = _
    rw [getE_foldl_addA fs g r c i j hg hfs hi hj]
    simp
  · intro f hf
    have h := (getE_foldl_maxA fs g r c i j hg hfs hi hj).1
    rcases List.mem_cons.mp hf with rfl | hf'
    · exact h.1
    · exact h.2 f hf'
  · have h := (getE_foldl_maxA fs g r c i j hg hfs hi hj).2
    rcases h with h | ⟨y, hy, hey⟩
    · exact ⟨g, by simp, h⟩
    · exact ⟨y, by simp [hy], hey⟩

/-- The spec's scenario stack: shape (5, 2, 2), values 0..19 sequential. -/
def stack5 : Arr3 :=
  [[[0, 1], [2, 3]], [[4, 5], [6, 7]], [[8, 9], [10, 11]],
   [[12, 13], [14, 15]], [[16, 17], [18, 19]]]

/-- Witness for C4 on `stack5`: middle index 2, mean entry (0,0) is 8, and the
max projection is the last frame `[[16,17],[18,19]]`. -/
theorem C4_witness :
    (stack5 ≠ [] ∧ ∀ f ∈ stack5, shape2 f 2 2) ∧
    summarize_mid_t stack5 = 2 ∧
    getE (np_mean0 stack5) 0 0 = 8 ∧
    (∀ f ∈ stack5, getE f 0 0 ≤ getE (np_max0 stack5) 0 0) ∧
    (∃ f ∈ stack5, getE (np_max0 stack5) 0 0 = getE f 0 0) ∧
    np_max0 stack5 = [[16, 17], [18, 19]] := by
  have h := C4_summarize_projections stack5 2 2 0 0 (by decide) (by decide)
    (by decide) (by decide)
  refine ⟨⟨by decide, by decide⟩, ?_, ?_, h.2.2.2.1, h.2.2.2.2, ?_⟩
  · rw [h.1]; rfl
  · rw [h.2.2.1]; norm_num [stack5, getE]
  · norm_num [np_max0, maxA, zip2, stack5, max_def]

/-- The first TIFF page's tag table: tag name → rational (numerator,
denominator) resolution value; `none` models an absent tag, on which the
Python subscript `tags[...]` raises KeyError. -/
abbrev TagTable := String → Option (ℚ × ℚ)

/-- viewer.py `load_tiff` scale computation (lines 8–24): read XResolution and
YResolution from the first page, convert each (num, den) pair to
pixels-per-unit `num/den`, take the reciprocal as the per-pixel physical size,
and build the napari scale tuple `(1.0, px_size_y, px_size_x)`.  The result is
`none` when either tag is missing: the KeyError propagates, no viewer is
launched and no scale is produced. -/
def load_tiff_scale (tags : TagTable) : Option (ℚ × ℚ × ℚ) := do
  let xres ← tags "XResolution"
  let yres ← tags "YResolution"
  let x_ppunit := xres.1 / xres.2
  let y_ppunit := yres.1 / yres.2
  let px_size_x := 1 / x_ppunit
  let px_size_y := 1 / y_ppunit
  return (1, px_size_y, px_size_x)

/-- Claim C5: with XResolution = (xn, xd) and YResolution = (yn, yd) present,
the computed scale tuple is `(1.0, 1/(yn/yd), 1/(xn/xd))`. -/
theorem C5_viewer_scale (tags : TagTable) (xn xd yn yd : ℚ)
    (hx : tags "XResolution" = some (xn, xd)) (hy : tags "YResolution" = some (yn, yd)) :
    load_tiff_scale tags = some (1, 1 / (yn / yd), 1 / (xn / xd)) := by
  simp [load_tiff_scale, hx, hy]

/-- A tag table carrying resolution (72, 1) on both axes. -/
def tags72 : TagTable := fun name =>
  if name = "XResolution" then some (72, 1)
  else if name = "YResolution" then some (72, 1)
  else none

/-- Witness for C5: resolution tags (72, 1) yield the scale (1, 1/72, 1/72). -/
theorem C5_witness :
    (tags72 "XResolution" = some (72, 1) ∧ tags72 "YResolution" = some (72, 1)) ∧
    load_tiff_scale tags72 = some (1, 1 / ((72 : ℚ) / 1), 1 / ((72 : ℚ) / 1)) ∧
    (1 / ((72 : ℚ) / 1) = 1 / 72) := by
  have hx : tags72 "XResolution" = some (72, 1) := by simp [tags72]
  have hy : tags72 "YResolution" = some (72, 1) := by simp [tags72]
  exact ⟨⟨hx, hy⟩, C5_viewer_scale tags72 72 1 72 1 hx hy, by norm_num⟩

/-- Claim C6: if XResolution or YResolution is absent from the first page,
the Viewer Bridge load fails (KeyError); no scale and no output is produced,
and no default is substituted. -/
theorem C6_viewer_missing_tags (tags : TagTable)
    (h : tags "XResolution" = none ∨ tags "YResolution" = none) :
    load_tiff_scale tags = none := by
  rcases h with hx | hy
  · simp [load_tiff_scale, hx]
  · cases hx : tags "XResolution" <;> simp [load_tiff_scale, hx, hy]

/-- A tag table with no resolution tags at all. -/
def tagsNoRes : TagTable := fun _ => none

/-- Witness for C6: with no tags present, the load yields nothing. -/
theorem C6_witness :
    (tagsNoRes "XResolution" = none ∨ tagsNoRes "YResolution" = none) ∧
    load_tiff_scale tagsNoRes = none :=
  ⟨Or.inl rfl, C6_viewer_missing_tags tagsNoRes (Or.inl rfl)⟩

/-- Python's substring test `sub in s` over character lists. -/
def charsContain (sub : List Char) : List Char → Bool
  | [] => sub.isEmpty
  | c :: rest => List.isPrefixOf sub (c :: rest) || charsContain sub rest

/-- Python `sub in s` for strings. -/
def pyIn (sub s : String) : Bool := charsContain sub.data s.data

/-- Python `str(x)` on the optional description field: `str(None) = "None"`. -/
def pyStr : Option String → String
  | none => "None"
  | some s => s

/-- Python `str.lower()`, character by character (faithful on ASCII). -/
def pyLower (s : String) : String := ⟨s.data.map Char.toLower⟩

/-- What the reader's `__main__` prints about axis 0 of a 3D stack. -/
inductive AxisGuess
  | time | depth | guessTime
deriving DecidableEq

/-- reader.py `__main__` heuristic (lines 151–158): axis 0 is TIME when
"frames" occurs in `str(desc).lower()` or "frames" is a key of the metadata
dict (Python's `in` on a dict tests keys); otherwise DEPTH when "slices"
occurs in the lowered description; otherwise the script guesses TIME. -/
def axis_label {α : Type} (desc : Option String) (meta : List (String × α)) : AxisGuess :=
  let s := pyLower (pyStr desc)
  if pyIn "frames" s || (meta.map Prod.fst).contains "frames" then .time
  else if pyIn "slices" s then .depth
  else .guessTime

/-- Claim C8: the axis-labelling heuristic reports TIME iff "frames" occurs in
the lowered description or is a key (not a value) of the metadata mapping;
otherwise DEPTH iff "slices" occurs; otherwise it guesses TIME; and the result
depends on the metadata only through its key list. -/
theorem C8_axis_heuristic {α : Type} (desc : Option String) (meta : List (String × α)) :
    (axis_label desc meta = .time ↔
      (pyIn "frames" (pyLower (pyStr desc)) = true ∨ "frames" ∈ meta.map Prod.fst)) ∧
    (axis_label desc meta = .depth ↔
      (¬(pyIn "frames" (pyLower (pyStr desc)) = true ∨ "frames" ∈ meta.map Prod.fst) ∧
        pyIn "slices" (pyLower (pyStr desc)) = true)) ∧
    (axis_label desc meta = .guessTime ↔
      (¬(pyIn "frames" (pyLower (pyStr desc)) = true ∨ "frames" ∈ meta.map Prod.fst) ∧
        ¬pyIn "slices" (pyLower (pyStr desc)) = true)) ∧
    (∀ (β : Type) (meta2 : List (String × β)),
      meta.map Prod.fst = meta2.map Prod.fst →
      axis_label desc meta = axis_label desc meta2) := by
  have hc : ((meta.map Prod.fst).contains "frames" = true) ↔ "frames" ∈ meta.map Prod.fst :=
    List.elem_iff
  have main : ∀ g : AxisGuess, axis_label desc meta = g ↔
      (if pyIn "frames" (pyLower (pyStr desc)) = true ∨ "frames" ∈ meta.map Prod.fst then
        AxisGuess.time
      else if pyIn "slices" (pyLower (pyStr desc)) = true then AxisGuess.depth
      else AxisGuess.guessTime) = g := by
    intro g
    by_cases hm : "frames" ∈ meta.map Prod.fst
    · have hb2 : (meta.map Prod.fst).contains "frames" = true := hc.mpr hm
      cases hb1 : pyIn "frames" (pyLower (pyStr desc)) <;>
        cases hb3 : pyIn "slices" (pyLower (pyStr desc)) <;>
        simp [axis_label, hb1, hb2, hb3, hm]
    · have hb2 : (meta.map Prod.fst).contains "frames" = false := by
        cases h : (meta.map Prod.fst).contains "frames"
        · rfl
        · exact absurd (hc.mp h) hm
      cases hb1 : pyIn "frames" (pyLower (pyStr desc)) <;>
        cases hb3 : pyIn "slices" (pyLower (pyStr desc)) <;>
        simp [axis_label, hb1, hb2, hb3, hm]
  refine ⟨?_, ?_, ?_, ?_⟩
  · rw [main .time]
    by_cases h1 : pyIn "frames" (pyLower (pyStr desc)) = true ∨ "frames" ∈ meta.map Prod.fst
    · rw [if_pos h1]; exact iff_of_true rfl h1
    · rw [if_neg h1]
      by_cases h2 : pyIn "slices" (pyLower (pyStr desc)) = true
      · rw [if_pos h2]; exact iff_of_false (by decide) h1
      · rw [if_neg h2]; exact iff_of_false (by decide) h1
  · rw [main .depth]
    by_cases h1 : pyIn "frames" (pyLower (pyStr desc)) = true ∨ "frames" ∈ meta.map Prod.fst
    · rw [if_pos h1]; exact iff_of_false (by decide) (fun hcon => hcon.1 h1)
    · rw [if_neg h1]
      by_cases h2 : pyIn "slices" (pyLower (pyStr desc)) = true
      · rw [if_pos h2]; exact iff_of_true rfl ⟨h1, h2⟩
      · rw [if_neg h2]; exact iff_of_false (by decide) (fun hcon => h2 hcon.2)
  · rw [main .guessTime]
    by_cases h1 : pyIn "frames" (pyLower (pyStr desc)) = true ∨ "frames" ∈ meta.map Prod.fst
    · rw [if_pos h1]; exact iff_of_false (by decide) (fun hcon => hcon.1 h1)
    · rw [if_neg h1]
      by_cases h2 : pyIn "slices" (pyLower (pyStr desc)) = true
      · rw [if_pos h2]; exact iff_of_false (by decide) (fun hcon => hcon.2 h2)
      · rw [if_neg h2]; exact iff_of_true rfl ⟨h1, h2⟩
  · intro β meta2 hkeys
    simp only [axis_label, hkeys]

/-- Witness for C8: "frames" in the description gives TIME; a metadata KEY
"frames" gives TIME; "slices" gives DEPTH; "frames" appearing only as a
metadata VALUE does not count (the guess branch fires); and the label is
unchanged when values change but keys stay. -/
theorem C8_witness :
    axis_label (some "ImageJ Frames=100") ([] : List (String × ℚ)) = .time ∧
    axis_label none [("frames", (0 : ℚ))] = .time ∧
    axis_label (some "slices=40") ([] : List (String × ℚ)) = .depth ∧
    axis_label none [("ImageDescription", "frames")] = .guessTime ∧
    axis_label none [("a", (1 : ℚ))] = axis_label none [("a", (2 : ℚ))] := by
  refine ⟨?_, ?_, ?_, ?_, ?_⟩
  · exact (C8_axis_heuristic (some "ImageJ Frames=100") ([] : List (String × ℚ))).1.mpr
      (Or.inl (by decide))
  · exact (C8_axis_heuristic none [("frames", (0 : ℚ))]).1.mpr (Or.inr (by decide))
  · exact (C8_axis_heuristic (some "slices=40") ([] : List (String × ℚ))).2.1.mpr
      ⟨by decide, by decide⟩
  · exact (C8_axis_heuristic none [("ImageDescription", "frames")]).2.2.1.mpr
      ⟨by decide, by decide⟩
  · exact (C8_axis_heuristic none [("a", (1 : ℚ))]).2.2.2 ℚ [("a", (2 : ℚ))] rfl

/-- reader.py `play_movie`: `stop = stop or data.shape[0]` — Python `or`
replaces a falsy left operand (None, or the int 0) by the right operand. -/
def play_movie_stop (n_frames : ℕ) (stop : Option ℕ) : ℕ :=
  match stop with
  | none => n_frames
  | some s => if s = 0 then n_frames else s

/-- The frame indices `range(start, stop)` the animation steps through. -/
def play_movie_frames (n_frames start : ℕ) (stop : Option ℕ) : List ℕ :=
  List.range' start (play_movie_stop n_frames stop - start)

/-- Claim C10: `play_movie` with the explicit argument stop=0 behaves exactly
like omitting stop: 0 is falsy, so it is replaced by the full stack length and
the whole stack `range(0, n)` is played rather than an empty range. -/
theorem C10_play_movie_stop_zero (n start : ℕ) :
    play_movie_frames n start (some 0) = play_movie_frames n start none ∧
    play_movie_frames n 0 (some 0) = List.range n := by
  constructor
  · rfl
  · simp [play_movie_frames, play_movie_stop, List.range_eq_range']

theorem getD_append_self {α : Type} (l : List α) (b d : α) :
    (l ++ [b]).getD l.length d = b := by
  induction l with
  | nil => rfl
  | cons x xs ih => simpa only [List.cons_append, List.length_cons, List.getD_cons_succ] using ih

/-- A heap cell: one numpy buffer (2D or 3D). -/
inductive Buf
  | a2 (a : Arr2)
  | a3 (d : Arr3)

/-- The allocation state: every live numpy buffer, in allocation order. -/
structure Heap where
  bufs : List Buf

/-- A buffer reference: its index in the allocation list. -/
abbrev Ref := ℕ

def Heap.read (h : Heap) (r : Ref) : Buf := h.bufs.getD r (.a2 [])

/-- Read a reference as a 2D array. -/
def Heap.read2 (h : Heap) (r : Ref) : Arr2 :=
  match h.read r with
  | .a2 a => a
  | .a3 _ => []

/-- Read a reference as a 3D stack. -/
def Heap.read3 (h : Heap) (r : Ref) : Arr3 :=
  match h.read r with
  | .a3 d => d
  | .a2 _ => []

/-- Allocate a fresh buffer at the end of the heap; no existing cell is
touched. -/
def Heap.alloc (h : Heap) (b : Buf) : Heap × Ref :=
  (⟨h.bufs ++ [b]⟩, h.bufs.length)

/-- `AllocOnly h h2`: heap `h2` extends `h` — every buffer already allocated
in `h` is unchanged and the allocation list only grew.  This is the heap
effect of a pipeline step that reads existing arrays and allocates new ones,
never writing in place. -/
def AllocOnly (h h2 : Heap) : Prop :=
  h.bufs.length ≤ h2.bufs.length ∧ ∀ r < h.bufs.length, h2.read r = h.read r

theorem AllocOnly.trans {h1 h2 h3 : Heap} (a : AllocOnly h1 h2) (b : AllocOnly h2 h3) :
    AllocOnly h1 h3 :=
  ⟨le_trans a.1 b.1, fun r hr => (b.2 r (lt_of_lt_of_le hr a.1)).trans (a.2 r hr)⟩

theorem allocOnly_alloc (h : Heap) (b : Buf) : AllocOnly h (h.alloc b).1 := by
  refine ⟨by simp [Heap.alloc], fun r hr => ?_⟩
  simp only [Heap.alloc, Heap.read]
  exact List.getD_append _ _ _ _ hr

theorem AllocOnly.read2_eq {h h2 : Heap} (a : AllocOnly h h2) (r : Ref)
    (hr : r < h.bufs.length) : h2.read2 r = h.read2 r := by
  unfold Heap.read2
  rw [a.2 r hr]

theorem AllocOnly.read3_eq {h h2 : Heap} (a : AllocOnly h h2) (r : Ref)
    (hr : r < h.bufs.length) : h2.read3 r = h.read3 r := by
  unfold Heap.read3
  rw [a.2 r hr]

theorem read_alloc_self (h : Heap) (b : Buf) : (h.alloc b).1.read (h.alloc b).2 = b := by
  simp only [Heap.alloc, Heap.read]
  exact getD_append_self h.bufs b _

theorem read2_alloc_self (h : Heap) (a : Arr2) :
    (h.alloc (.a2 a)).1.read2 (h.alloc (.a2 a)).2 = a := by
  unfold Heap.read2
  rw [read_alloc_self]

/-- Heap-level `percentile_contrast`: `np.percentile` only reads the input;
`zeros_like`, `astype`, the subtraction, the division and `np.clip` each
allocate a fresh buffer.  Nothing writes the input or any older buffer. -/
def percentile_contrast_h (h : Heap) (img2d : Arr2) (low high : ℚ) : Heap × Ref :=
  let p_low := np_percentile img2d low
  let p_high := np_percentile img2d high
  if p_high = p_low then
    let hr1 := h.alloc (.a2 (zeros_like img2d))
    (hr1.1).alloc (.a2 ((hr1.1.read2 hr1.2).map (fun row => row.map clip01)))
  else
    let hr1 := h.alloc (.a2 (astype_f img2d))
    let hr2 := (hr1.1).alloc
      (.a2 ((hr1.1.read2 hr1.2).map (fun row => row.map (fun x => x - p_low))))
    let hr3 := (hr2.1).alloc
      (.a2 ((hr2.1.read2 hr2.2).map (fun row => row.map (fun x => x / (p_high - p_low)))))
    (hr3.1).alloc (.a2 ((hr3.1.read2 hr3.2).map (fun row => row.map clip01)))

theorem percentile_contrast_eq (img2d : Arr2) (low high : ℚ) :
    percentile_contrast img2d low high =
      if np_percentile img2d high = np_percentile img2d low then
        (zeros_like img2d).map (fun row => row.map clip01)
      else
        ((astype_f img2d).map (fun row => row.map (fun x =>
            (x - np_percentile img2d low) /
              (np_percentile img2d high - np_percentile img2d low)))).map
          (fun row => row.map clip01) := by
  unfold percentile_contrast
  by_cases hc : np_percentile img2d high = np_percentile img2d low <;> simp [hc]

theorem percentile_contrast_h_allocOnly (h : Heap) (img2d : Arr2) (low high : ℚ) :
    AllocOnly h (percentile_contrast_h h img2d low high).1 := by
  simp only [percentile_contrast_h]
  by_cases hc : np_percentile img2d high = np_percentile img2d low
  · rw [if_pos hc]
    exact (allocOnly_alloc _ _).trans (allocOnly_alloc _ _)
  · rw [if_neg hc]
    exact (((allocOnly_alloc _ _).trans (allocOnly_alloc _ _)).trans
      (allocOnly_alloc _ _)).trans (allocOnly_alloc _ _)

theorem percentile_contrast_h_result (h : Heap) (img2d : Arr2) (low high : ℚ) :
    h.bufs.length ≤ (percentile_contrast_h h img2d low high).2 ∧
    (percentile_contrast_h h img2d low high).1.read2 (percentile_contrast_h h img2d low high).2
      = percentile_contrast img2d low high := by
  rw [percentile_contrast_eq]
  simp only [percentile_contrast_h]
  by_cases hc : np_percentile img2d high = np_percentile img2d low
  · rw [if_pos hc, if_pos hc]
    constructor
    · simp [Heap.alloc]
    · rw [read2_alloc_self, read2_alloc_self]
  · rw [if_neg hc, if_neg hc]
    constructor
    · simp [Heap.alloc]
    · rw [read2_alloc_self, read2_alloc_self, read2_alloc_self, read2_alloc_self]
      simp [List.map_map, Function.comp]

/-- Heap-level `summarize_movie` over a stack buffer: read the stack, take the
middle-frame view (a read, not an allocation), contrast-stretch it for display
and again for its PNG, allocate the mean and max projections, stretch each for
display and for its PNG, and allocate the two rescaled uint16 TIFF payloads
(`np.mean` yields float projections, so `save_as_tiff` takes its float
branch).  Returns the final heap and the refs of the two projections. -/
def summarize_movie_h (h : Heap) (rdata : Ref) (low high : ℚ) : Heap × Ref × Ref :=
  let data := h.read3 rdata
  let mid_frame := data.getD (data.length / 2) []
  let hshow := percentile_contrast_h h mid_frame low high
  let hpng := percentile_contrast_h hshow.1 mid_frame low high
  let hmean := (hpng.1).alloc (.a2 (np_mean0 data))
  let hmax := (hmean.1).alloc (.a2 (np_max0 data))
  let hshow2 := percentile_contrast_h hmax.1 (hmax.1.read2 hmean.2) low high
  let hshow3 := percentile_contrast_h hshow2.1 (hshow2.1.read2 hmax.2) low high
  let hpng2 := percentile_contrast_h hshow3.1 (hshow3.1.read2 hmean.2) low high
  let hpng3 := percentile_contrast_h hpng2.1 (hpng2.1.read2 hmax.2) low high
  let htif1 := (hpng3.1).alloc (.a2 ((hpng3.1.read2 hmean.2).map (fun row =>
    row.map (fun v => ((⌊min (max (v * 65535) 0) 65535⌋ : ℤ) : ℚ)))))
  let htif2 := (htif1.1).alloc (.a2 ((htif1.1.read2 hmax.2).map (fun row =>
    row.map (fun v => ((⌊min (max (v * 65535) 0) 65535⌋ : ℤ) : ℚ)))))
  (htif2.1, hmean.2, hmax.2)

theorem summarize_movie_h_allocOnly (h : Heap) (rdata : Ref) (low high : ℚ) :
    AllocOnly h (summarize_movie_h h rdata low high).1 := by
  simp only [summarize_movie_h]
  exact (((((((((percentile_contrast_h_allocOnly _ _ _ _).trans
    (percentile_contrast_h_allocOnly _ _ _ _)).trans
    (allocOnly_alloc _ _)).trans
    (allocOnly_alloc _ _)).trans
    (percentile_contrast_h_allocOnly _ _ _ _)).trans
    (percentile_contrast_h_allocOnly _ _ _ _)).trans
    (percentile_contrast_h_allocOnly _ _ _ _)).trans
    (percentile_contrast_h_allocOnly _ _ _ _)).trans
    (allocOnly_alloc _ _)).trans
    (allocOnly_alloc _ _)

theorem summarize_movie_h_results (h : Heap) (rdata : Ref) (low high : ℚ) :
    h.bufs.length ≤ (summarize_movie_h h rdata low high).2.1 ∧
    h.bufs.length ≤ (summarize_movie_h h rdata low high).2.2 ∧
    (summarize_movie_h h rdata low high).2.1 ≠ (summarize_movie_h h rdata low high).2.2 ∧
    (summarize_movie_h h rdata low high).1.read2 (summarize_movie_h h rdata low high).2.1
      = np_mean0 (h.read3 rdata) ∧
    (summarize_movie_h h rdata low high).1.read2 (summarize_movie_h h rdata low high).2.2
      = np_max0 (h.read3 rdata) := by
  simp only [summarize_movie_h]
  set data := h.read3 rdata
  set mid := data.getD (data.length / 2) []
  set P1 := percentile_contrast_h h mid low high
  set P2 := percentile_contrast_h P1.1 mid low high
  set A3 := P2.1.alloc (.a2 (np_mean0 data))
  set A4 := A3.1.alloc (.a2 (np_max0 data))
  set P5 := percentile_contrast_h A4.1 (A4.1.read2 A3.2) low high
  set P6 := percentile_contrast_h P5.1 (P5.1.read2 A4.2) low high
  set P7 := percentile_contrast_h P6.1 (P6.1.read2 A3.2) low high
  set P8 := percentile_contrast_h P7.1 (P7.1.read2 A4.2) low high
  set A9 := P8.1.alloc (.a2 ((P8.1.read2 A3.2).map (fun row =>
    row.map (fun v => ((⌊min (max (v * 65535) 0) 65535⌋ : ℤ) : ℚ)))))
  set A10 := A9.1.alloc (.a2 ((A9.1.read2 A4.2).map (fun row =>
    row.map (fun v => ((⌊min (max (v * 65535) 0) 65535⌋ : ℤ) : ℚ)))))
  have c1 : AllocOnly h P1.1 := percentile_contrast_h_allocOnly h mid low high
  have c2 : AllocOnly P1.1 P2.1 := percentile_contrast_h_allocOnly P1.1 mid low high
  have c3 : AllocOnly P2.1 A3.1 := allocOnly_alloc P2.1 _
  have c4 : AllocOnly A3.1 A4.1 := allocOnly_alloc A3.1 _
  have c5 : AllocOnly A4.1 P5.1 := percentile_contrast_h_allocOnly A4.1 _ low high
  have c6 : AllocOnly P5.1 P6.1 := percentile_contrast_h_allocOnly P5.1 _ low high
  have c7 : AllocOnly P6.1 P7.1 := percentile_contrast_h_allocOnly P6.1 _ low high
  have c8 : AllocOnly P7.1 P8.1 := percentile_contrast_h_allocOnly P7.1 _ low high
  have c9 : AllocOnly P8.1 A9.1 := allocOnly_alloc P8.1 _
  have c10 : AllocOnly A9.1 A10.1 := allocOnly_alloc A9.1 _
  have hr3 : A3.2 = P2.1.bufs.length := rfl
  have hr4 : A4.2 = A3.1.bufs.length := rfl
  have hlen3 : A3.1.bufs.length = P2.1.bufs.length + 1 := by
    simp [A3, Heap.alloc]
  have hlen4 : A4.1.bufs.length = A3.1.bufs.length + 1 := by
    simp [A4, Heap.alloc]
  have hmean0 : A3.1.read2 A3.2 = np_mean0 data := read2_alloc_self P2.1 (np_mean0 data)
  have hmax0 : A4.1.read2 A4.2 = np_max0 data := read2_alloc_self A3.1 (np_max0 data)
  have chain4 : AllocOnly A4.1 A10.1 :=
    ((((c5.trans c6).trans c7).trans c8).trans c9).trans c10
  have chain3 : AllocOnly A3.1 A10.1 := c4.trans chain4
  refine ⟨?_, ?_, ?_, ?_, ?_⟩
  · show h.bufs.length ≤ A3.2
    rw [hr3]
    exact (c1.trans c2).1
  · show h.bufs.length ≤ A4.2
    rw [hr4, hlen3]
    exact le_trans (c1.trans c2).1 (Nat.le_succ _)
  · show A3.2 ≠ A4.2
    rw [hr3, hr4, hlen3]
    exact Nat.ne_of_lt (Nat.lt_succ_self _)
  · show A10.1.read2 A3.2 = np_mean0 data
    rw [chain3.read2_eq A3.2 (by rw [hr3, hlen3]; exact Nat.lt_succ_self _)]
    exact hmean0
  · show A10.1.read2 A4.2 = np_max0 data
    rw [chain4.read2_eq A4.2 (by rw [hr4, hlen4]; exact Nat.lt_succ_self _)]
    exact hmax0

/-- Claim C9: the pipeline never mutates its inputs.  Run over an explicit
heap of numpy buffers, `percentile_contrast` and the `summarize_movie`
pipeline only allocate fresh buffers: every buffer already allocated (in
particular the stack) reads the same after the call as before; the returned
display image and the mean/max projections live in newly allocated buffers
(refs at or past the old heap end); and their contents equal the pure
functions of the original input. -/
theorem C9_no_mutation (h : Heap) (rdata : Ref) (low high : ℚ) (img2d : Arr2)
    (hr : rdata < h.bufs.length) :
    (∀ r < h.bufs.length, (percentile_contrast_h h img2d low high).1.read r = h.read r) ∧
    h.bufs.length ≤ (percentile_contrast_h h img2d low high).2 ∧
    (percentile_contrast_h h img2d low high).1.read2 (percentile_contrast_h h img2d low high).2
      = percentile_contrast img2d low high ∧
    (∀ r < h.bufs.length, (summarize_movie_h h rdata low high).1.read r = h.read r) ∧
    (summarize_movie_h h rdata low high).1.read3 rdata = h.read3 rdata ∧
    h.bufs.length ≤ (summarize_movie_h h rdata low high).2.1 ∧
    h.bufs.length ≤ (summarize_movie_h h rdata low high).2.2 ∧
    (summarize_movie_h h rdata low high).1.read2 (summarize_movie_h h rdata low high).2.1
      = np_mean0 (h.read3 rdata) ∧
    (summarize_movie_h h rdata low high).1.read2 (summarize_movie_h h rdata low high).2.2
      = np_max0 (h.read3 rdata) := by
  have hp := percentile_contrast_h_allocOnly h img2d low high
  have hpr := percentile_contrast_h_result h img2d low high
  have hs := summarize_movie_h_allocOnly h rdata low high
  have hsr := summarize_movie_h_results h rdata low high
  exact ⟨hp.2, hpr.1, hpr.2, hs.2, hs.read3_eq rdata hr,
    hsr.1, hsr.2.1, hsr.2.2.2.1, hsr.2.2.2.2⟩

/-- A one-buffer heap holding a small stack, for the C9 witness. -/
def heap0 : Heap := ⟨[Buf.a3 [[[1, 2], [3, 4]], [[5, 6], [7, 8]]]]⟩

/-- Witness for C9 on `heap0` (stack at ref 0): the stack buffer is unchanged
by the whole pipeline, and the projection buffers are fresh. -/
theorem C9_witness :
    0 < heap0.bufs.length ∧
    ((∀ r < heap0.bufs.length, (percentile_contrast_h heap0 [[5]] 1 99).1.read r = heap0.read r) ∧
     heap0.bufs.length ≤ (percentile_contrast_h heap0 [[5]] 1 99).2 ∧
     (percentile_contrast_h heap0 [[5]] 1 99).1.read2 (percentile_contrast_h heap0 [[5]] 1 99).2
       = percentile_contrast [[5]] 1 99 ∧
     (∀ r < heap0.bufs.length, (summarize_movie_h heap0 0 1 99).1.read r = heap0.read r) ∧
     (summarize_movie_h heap0 0 1 99).1.read3 0 = heap0.read3 0 ∧
     heap0.bufs.length ≤ (summarize_movie_h heap0 0 1 99).2.1 ∧
     heap0.bufs.length ≤ (summarize_movie_h heap0 0 1 99).2.2 ∧
     (summarize_movie_h heap0 0 1 99).1.read2 (summarize_movie_h heap0 0 1 99).2.1
       = np_mean0 (heap0.read3 0) ∧
     (summarize_movie_h heap0 0 1 99).1.read2 (summarize_movie_h heap0 0 1 99).2.2
       = np_max0 (heap0.read3 0)) :=
  ⟨by decide, C9_no_mutation heap0 0 1 99 [[5]] (by decide)⟩
